import Mathlib

/-!
Shallow embedding of the two command-line utilities of this repository:

* `.githooks/watermark.py`  — invisible watermark applier/verifier,
* `scripts/convert_to_webp.py` — batch lossless WebP converter.

External collaborators (OpenCV `imread`/`imwrite`, the `imwatermark`
encoder/decoder, PIL `Image.open`/`convert`/`save`, the filesystem) are
modelled as explicit environments of abstract primitives; the scripts'
own logic (skip list, check-before-apply, branching, batch loops, exit
codes, counters) is translated line by line.  Images are an abstract
type; file contents are tracked by a path-indexed map; side effects are
additionally recorded as an explicit event trace.
-/

/-! ### watermark.py : constants -/

/-- WATERMARK_TEXT = b"\xc2\xa9 Alex Clairr 2025" (UTF-8 bytes of the copyright
notice), modelled as the list of its byte values. -/
def WATERMARK_TEXT : List Nat :=
  [0xC2, 0xA9, 0x20, 0x41, 0x6C, 0x65, 0x78, 0x20, 0x43, 0x6C, 0x61, 0x69, 0x72, 0x72,
   0x20, 0x32, 0x30, 0x32, 0x35]

/-- ALGORITHM = "dwtDctSvd", passed verbatim to the external encoder/decoder. -/
def ALGORITHM : String := "dwtDctSvd"

/-- SKIP_FILES = {"assets/pics/lelem.png"}: images exempted from watermark
processing. -/
def SKIP_FILES : List String := ["assets/pics/lelem.png"]

/-! ### path helpers used by watermark.py -/

/-- Characters of a string, lower-cased (models Python `str.lower()` on the
ASCII paths the scripts handle). -/
def lowerChars (s : String) : List Char := s.toList.map Char.toLower

/-- Models `str(image_path).lower().endswith((".jpg", ".jpeg"))`. -/
def isJpegPath (p : String) : Bool :=
  decide (".jpg".toList <:+ lowerChars p) || decide (".jpeg".toList <:+ lowerChars p)

/-- Models Python `s.rsplit(".", 1)[0]` on a character list: everything
before the last dot, or the whole list when there is no dot. -/
def pyRsplitStem (l : List Char) : List Char :=
  if l.contains '.' then ((l.reverse.dropWhile (fun c => c ≠ '.')).tail).reverse
  else l

/-- Models `str(image_path).rsplit(".", 1)[0] + ".png"`: the target path the
watermarker writes when the source is a JPEG. -/
def pngTarget (p : String) : String := ⟨pyRsplitStem p.toList ++ ".png".toList⟩

/-! ### watermark.py : environment and results -/

/-- Filesystem contents as seen through `cv2.imread`: each path holds an
(abstract) decoded pixel buffer, or nothing when the file is absent or
undecodable (`imread` returns `None`). -/
def FS (Img : Type) := String → Option Img

/-- External primitives used by `ImageWatermarker`: the `imwatermark`
encoder (`self.encoder.encode(img, ALGORITHM)`, may raise), the decoder
(`self.decoder.decode(img, ALGORITHM)`, may raise), and the success flag of
`cv2.imwrite`. -/
structure Prims (Img : Type) where
  encodeImg : Img → String → Except String Img
  decodeWM : Img → String → Except String (List Nat)
  writeOk : String → Img → Bool

/-- Side effects performed on the way: reading a file, invoking the
watermark decoder or encoder, writing a file (with the write's success
flag), and deleting a file. -/
inductive Effect where
  | readE (p : String)
  | decodeE
  | encodeE
  | writeE (p : String) (ok : Bool)
  | removeE (p : String)
deriving DecidableEq, Repr

/-- Result of `verify_watermark`: the `(bool, message)` pair returned by the
Python function, together with the trace of effects it performed. -/
structure VerifyResult where
  success : Bool
  message : Option String
  effects : List Effect
deriving DecidableEq, Repr

/-- Result of `apply_watermark`: the `(bool, message)` pair, the filesystem
after the call, and the trace of effects performed. -/
structure ApplyResult (Img : Type) where
  success : Bool
  message : Option String
  fs : FS Img
  effects : List Effect

/-! ### watermark.py : verify_watermark and apply_watermark -/

/-- ImageWatermarker.verify_watermark(image_path, skip_check): skip-listed
paths are reported verified by exemption (when `skip_check` is set, its
Python default being True); otherwise the image is read, the watermark
decoded, and the recovered payload compared byte-for-byte with
WATERMARK_TEXT; an unreadable image or a raising decoder yields
`(False, error message)`. -/
def verify_watermark {Img : Type} (prims : Prims Img) (fs : FS Img) (p : String)
    (skip_check : Bool) : VerifyResult :=
  if skip_check && decide (p ∈ SKIP_FILES) then
    ⟨true, some ("Skipped (in skip list): " ++ p), []⟩
  else
    match fs p with
    | none => ⟨false, some ("Could not read image: " ++ p), [Effect.readE p]⟩
    | some img =>
      match prims.decodeWM img ALGORITHM with
      | Except.error e => ⟨false, some e, [Effect.readE p, Effect.decodeE]⟩
      | Except.ok d => ⟨decide (d = WATERMARK_TEXT), none, [Effect.readE p, Effect.decodeE]⟩

/-- ImageWatermarker.apply_watermark(image_path): skip-listed paths are
reported skipped; otherwise the watermark is checked first
(`verify_watermark(image_path, skip_check=False)`) and an already
watermarked image is reported as such; otherwise the image is read,
encoded, and written back — a `.jpg`/`.jpeg` source is written to the
`.png` sibling and, when that write succeeds, the original is removed;
any other source is overwritten in place. -/
def apply_watermark {Img : Type} (prims : Prims Img) (fs : FS Img) (p : String) :
    ApplyResult Img :=
  if decide (p ∈ SKIP_FILES) then
    ⟨true, some ("Skipped (in skip list): " ++ p), fs, []⟩
  else
    let v := verify_watermark prims fs p false
    if v.success then
      ⟨true, some ("Already watermarked: " ++ p), fs, v.effects⟩
    else
      match fs p with
      | none => ⟨false, some ("Could not read image: " ++ p), fs, v.effects ++ [Effect.readE p]⟩
      | some img =>
        match prims.encodeImg img ALGORITHM with
        | Except.error e => ⟨false, some e, fs, v.effects ++ [Effect.readE p, Effect.encodeE]⟩
        | Except.ok wm =>
          if isJpegPath p then
            let png := pngTarget p
            if prims.writeOk png wm then
              ⟨true, some ("Converted to PNG and watermarked: " ++ png),
                fun q => if q = p then none else if q = png then some wm else fs q,
                v.effects ++ [Effect.readE p, Effect.encodeE, Effect.writeE png true,
                  Effect.removeE p]⟩
            else
              ⟨false, none, fs,
                v.effects ++ [Effect.readE p, Effect.encodeE, Effect.writeE png false]⟩
          else
            if prims.writeOk p wm then
              ⟨true, none, fun q => if q = p then some wm else fs q,
                v.effects ++ [Effect.readE p, Effect.encodeE, Effect.writeE p true]⟩
            else
              ⟨false, none, fs,
                v.effects ++ [Effect.readE p, Effect.encodeE, Effect.writeE p false]⟩

/-! ### watermark.py : batch loops of main() -/

/-- Outcome of the `apply` subcommand's loop: the process exit status, the
files actually processed (in order), and the final filesystem. -/
structure ApplyBatchResult (Img : Type) where
  code : Nat
  processed : List String
  fs : FS Img

/-- The `apply` loop of `main()`: each file is watermarked in turn; on the
first failure the process prints the error and exits with status 1 at
once; when the loop completes the process ends with status 0. -/
def applyBatch {Img : Type} (prims : Prims Img) : FS Img → List String → ApplyBatchResult Img
  | fs, [] => ⟨0, [], fs⟩
  | fs, f :: rest =>
    let r := apply_watermark prims fs f
    if r.success then
      let b := applyBatch prims r.fs rest
      ⟨b.code, f :: b.processed, b.fs⟩
    else
      ⟨1, [f], r.fs⟩

/-- Outcome of the `verify` subcommand's loop: exit status and the files
processed (in order). -/
structure VerifyBatchResult where
  code : Nat
  processed : List String

/-- The `verify` loop of `main()`: every file is checked (with the default
`skip_check`), an `all_good` flag accumulates failures, and the process
exits 1 when any file failed to verify, 0 otherwise. -/
def verifyBatch {Img : Type} (prims : Prims Img) (fs : FS Img) :
    Bool → List String → VerifyBatchResult
  | all_good, [] => ⟨if all_good then 0 else 1, []⟩
  | all_good, f :: rest =>
    let r := verify_watermark prims fs f true
    let b := verifyBatch prims fs (all_good && r.success) rest
    ⟨b.code, f :: b.processed⟩

/-! ### convert_to_webp.py : images, save parameters, environment -/

/-- PIL image as used by the converter: its color `mode` string plus an
abstract payload identifying the pixel content. -/
structure PImg where
  mode : String
  data : Nat
deriving DecidableEq, Repr

/-- Keyword arguments of the `img.save(output_path, "WebP", lossless=True,
quality=100, optimize=True)` call. -/
structure SaveParams where
  format : String
  lossless : Bool
  quality : Nat
  optimize : Bool
deriving DecidableEq, Repr

/-- The exact parameters convert_image_to_webp saves with. -/
def webpParams : SaveParams := ⟨"WebP", true, 100, true⟩

/-- Contents of the filesystem as seen by the converter's `exists` checks
and `save` writes: each path optionally holds an abstract byte-content
identifier. -/
def OutFS := String → Option Nat

/-- External PIL primitives: `Image.open` (may raise), the payload of
`img.convert(mode)`, the result of `img.save` (an error when it raises,
otherwise the byte content written), and `Path.stat().st_size`. -/
structure PilEnv where
  openImg : String → Except String PImg
  convData : PImg → String → Nat
  saveRes : String → PImg → SaveParams → Except String Nat
  statSize : String → Nat

/-- Models `img.convert(mode)`: PIL returns an image in the requested mode
whose pixel payload is produced by the library. -/
def pilConvert (env : PilEnv) (img : PImg) (m : String) : PImg :=
  ⟨m, env.convData img m⟩

/-- The mode-normalization block of convert_image_to_webp: palette images
(`P`) are converted to `RGBA`; `RGBA` and `LA` fall in the same branch but
are kept as they are; any other mode that is neither `RGB` nor `RGBA` is
converted to `RGB`. -/
def prepareForWebp (env : PilEnv) (img : PImg) : PImg :=
  if img.mode = "RGBA" ∨ img.mode = "LA" ∨ img.mode = "P" then
    if img.mode = "P" then pilConvert env img "RGBA" else img
  else if ¬(img.mode = "RGB" ∨ img.mode = "RGBA") then
    pilConvert env img "RGB"
  else img

/-- Return value of convert_image_to_webp — `(success, original_size,
webp_size, error)` — together with the trace of attempted `save` calls. -/
structure ConvResult where
  success : Bool
  origSize : Nat
  webpSize : Nat
  error : Option String
  saves : List (String × PImg × SaveParams)

/-- convert_image_to_webp(input_path, output_path): open the image,
normalize its mode, save it as lossless WebP, and report the two file
sizes; any raised exception is caught and returned as `(False, 0, 0,
str(e))`.  The updated filesystem is returned alongside. -/
def convert_image_to_webp (env : PilEnv) (fs : OutFS) (input output : String) :
    ConvResult × OutFS :=
  match env.openImg input with
  | Except.error e => (⟨false, 0, 0, some e, []⟩, fs)
  | Except.ok img0 =>
    let img := prepareForWebp env img0
    match env.saveRes output img webpParams with
    | Except.error e => (⟨false, 0, 0, some e, [(output, img, webpParams)]⟩, fs)
    | Except.ok b =>
      (⟨true, env.statSize input, env.statSize output, none, [(output, img, webpParams)]⟩,
        fun q => if q = output then some b else fs q)

/-! ### convert_to_webp.py : directory scan of main() -/

/-- The `supported_formats` set of main(), as a list. -/
def supported_formats : List String := [".jpg", ".jpeg", ".png"]

/-- Upper-cased string (models Python `str.upper()` on the ASCII extension
strings it is applied to). -/
def strUpper (s : String) : String := ⟨s.toList.map Char.toUpper⟩

/-- Models `input_dir.glob(f"*{suffix}")` over the directory listing
`names`: the entries whose name ends with the literal suffix. -/
def globEndsWith (names : List String) (suffix : String) : List String :=
  names.filter (fun n => decide (suffix.toList <:+ n.toList))

/-- The scan loop of main(): for each supported extension, the glob of the
lower-case pattern and then of the upper-case pattern are appended to the
candidate list. -/
def imageFiles (names : List String) : List String :=
  supported_formats.foldl
    (fun acc ext => (acc ++ globEndsWith names ext) ++ globEndsWith names (strUpper ext)) []

/-- Models `img_path.with_suffix(".webp")` on a file name carrying one of
the supported extensions: the extension is replaced by `.webp`. -/
def withSuffixWebp (p : String) : String := ⟨pyRsplitStem p.toList ++ ".webp".toList⟩

/-! ### convert_to_webp.py : conversion loop and exit status of main() -/

/-- Running statistics of the conversion loop, plus the filesystem. -/
structure RunState where
  converted : Nat
  skipped : Nat
  errors : Nat
  totalOrig : Nat
  totalWebp : Nat
  fs : OutFS

/-- One iteration of the conversion loop: derive the `.webp` sibling; if it
already exists and `--overwrite` was not given, count the file as skipped;
otherwise convert it and count a success (accumulating both sizes) or an
error. -/
def convStep (env : PilEnv) (overwrite : Bool) (st : RunState) (f : String) : RunState :=
  let w := withSuffixWebp f
  if (st.fs w).isSome && !overwrite then
    { st with skipped := st.skipped + 1 }
  else
    let r := convert_image_to_webp env st.fs f w
    if r.1.success then
      { st with
        converted := st.converted + 1
        totalOrig := st.totalOrig + r.1.origSize
        totalWebp := st.totalWebp + r.1.webpSize
        fs := r.2 }
    else
      { st with errors := st.errors + 1, fs := r.2 }

/-- The conversion loop over the (sorted) candidate files. -/
def convRun (env : PilEnv) (overwrite : Bool) (fs0 : OutFS) (files : List String) : RunState :=
  files.foldl (convStep env overwrite) ⟨0, 0, 0, 0, 0, fs0⟩

/-- Insert a string into a sorted list (ascending). -/
def insertSorted (x : String) : List String → List String
  | [] => [x]
  | y :: ys => if x ≤ y then x :: y :: ys else y :: insertSorted x ys

/-- Models Python `sorted(image_files)`. -/
def sortStrings (l : List String) : List String := l.foldr insertSorted []

/-- Configuration of one converter invocation: the `--overwrite` flag,
whether the input directory exists, and its (non-recursive) listing. -/
structure ConvCfg where
  overwrite : Bool
  dirExists : Bool
  names : List String

/-- main() of convert_to_webp.py: return 1 when the input directory is
missing; return 0 when no supported image files are found; otherwise run
the conversion loop over the sorted candidates and return 0 exactly when
no per-file conversion errored. -/
def converterMain (env : PilEnv) (cfg : ConvCfg) (fs0 : OutFS) : Nat × RunState :=
  if !cfg.dirExists then (1, ⟨0, 0, 0, 0, 0, fs0⟩)
  else
    let files := imageFiles cfg.names
    if files.isEmpty then (0, ⟨0, 0, 0, 0, 0, fs0⟩)
    else
      let st := convRun env cfg.overwrite fs0 (sortStrings files)
      (if st.errors = 0 then 0 else 1, st)

/-! ### Helper lemmas -/

/-- A path whose lower-cased form ends in `.jpg` or `.jpeg` is distinct from
its `.png` sibling. -/
theorem pngTarget_ne_self {p : String} (h : isJpegPath p = true) : pngTarget p ≠ p := by
  intro heq
  have hlow : lowerChars p = (pyRsplitStem p.toList).map Char.toLower ++ ['.', 'p', 'n', 'g'] := by
    conv_lhs => rw [← heq]
    show (pngTarget p).toList.map Char.toLower = _
    unfold pngTarget
    rw [show (String.mk (pyRsplitStem p.toList ++ ".png".toList)).toList
        = pyRsplitStem p.toList ++ ".png".toList from rfl]
    rw [List.map_append]
    congr 1
  have hp4 : ['.', 'p', 'n', 'g'] <:+ lowerChars p := by
    rw [hlow]; exact List.suffix_append _ _
  unfold isJpegPath at h
  rw [Bool.or_eq_true] at h
  rcases h with h | h
  · have hj : ".jpg".toList <:+ lowerChars p := of_decide_eq_true h
    rcases List.suffix_or_suffix_of_suffix hj hp4 with hc | hc
    · exact absurd hc (by decide)
    · exact absurd hc (by decide)
  · have hj : ".jpeg".toList <:+ lowerChars p := of_decide_eq_true h
    rcases List.suffix_or_suffix_of_suffix hj hp4 with hc | hc
    · exact absurd hc (by decide)
    · exact absurd hc (by decide)

/-- verify_watermark never deletes anything: its trace holds no remove
event. -/
theorem verify_no_remove {Img : Type} (prims : Prims Img) (fs : FS Img) (p q : String)
    (sc : Bool) : Effect.removeE q ∉ (verify_watermark prims fs p sc).effects := by
  unfold verify_watermark
  split
  · simp
  · split
    · simp
    · split <;> simp

/-- apply_watermark on a readable image that already carries the watermark:
it reports success without encoding, writing or removing anything, and
leaves the filesystem unchanged. -/
theorem apply_on_watermarked {Img : Type} (prims : Prims Img) (fs : FS Img) (q : String)
    (w : Img) (hq : q ∉ SKIP_FILES) (hw : fs q = some w)
    (hdec : prims.decodeWM w ALGORITHM = Except.ok WATERMARK_TEXT) :
    apply_watermark prims fs q =
      ⟨true, some ("Already watermarked: " ++ q), fs, [Effect.readE q, Effect.decodeE]⟩ := by
  unfold apply_watermark verify_watermark
  simp [hq, hw, hdec]

/-- The verify loop returns every file it was given, in order. -/
theorem verifyBatch_processed {Img : Type} (prims : Prims Img) (fs : FS Img)
    (g : Bool) (files : List String) : (verifyBatch prims fs g files).processed = files := by
  induction files generalizing g with
  | nil => simp [verifyBatch]
  | cons f rest ih => simp [verifyBatch, ih]

/-- The verify loop exits 0 exactly when the accumulated flag was still set
and every remaining file verifies. -/
theorem verifyBatch_code {Img : Type} (prims : Prims Img) (fs : FS Img)
    (g : Bool) (files : List String) :
    (verifyBatch prims fs g files).code = 0 ↔
      (g = true ∧ ∀ q ∈ files, (verify_watermark prims fs q true).success = true) := by
  induction files generalizing g with
  | nil => cases g <;> simp [verifyBatch]
  | cons f rest ih =>
    rw [show (verifyBatch prims fs g (f :: rest)).code
        = (verifyBatch prims fs (g && (verify_watermark prims fs f true).success) rest).code
        from rfl]
    rw [ih]
    simp only [Bool.and_eq_true, List.forall_mem_cons]
    tauto

/-- A file whose `.webp` sibling already exists is counted skipped when
`--overwrite` is off, and nothing else in the state changes. -/
theorem convStep_skip (env : PilEnv) (st : RunState) (f : String)
    (h : (st.fs (withSuffixWebp f)).isSome = true) :
    convStep env false st f = { st with skipped := st.skipped + 1 } := by
  simp only [convStep]
  rw [h]
  rfl

/-- When every candidate's output already exists and `--overwrite` is off,
the loop only counts skips: no conversion, no error, no write. -/
theorem convRun_all_skipped (env : PilEnv) (files : List String) (st : RunState)
    (h : ∀ f ∈ files, (st.fs (withSuffixWebp f)).isSome = true) :
    files.foldl (convStep env false) st = { st with skipped := st.skipped + files.length } := by
  induction files generalizing st with
  | nil => simp
  | cons f rest ih =>
    rw [List.foldl_cons, convStep_skip env st f (h f (by simp))]
    rw [ih { st with skipped := st.skipped + 1 } (fun g hg => h g (by simp [hg]))]
    show RunState.mk _ _ _ _ _ _ = RunState.mk _ _ _ _ _ _
    simp only [List.length_cons]
    congr 1
    omega

/-- convert_image_to_webp touches no path other than its output. -/
theorem convert_fs_other (env : PilEnv) (fs : OutFS) (input output q : String)
    (hq : q ≠ output) : (convert_image_to_webp env fs input output).2 q = fs q := by
  unfold convert_image_to_webp
  cases env.openImg input with
  | error e => rfl
  | ok img0 =>
    dsimp only
    cases env.saveRes output (prepareForWebp env img0) webpParams with
    | error e => rfl
    | ok bb =>
      dsimp only
      rw [if_neg hq]

/-- One step of the conversion loop without `--overwrite` never changes an
output file that already exists. -/
theorem convStep_mono (env : PilEnv) (st : RunState) (f p : String) (b : Nat)
    (h : st.fs p = some b) : (convStep env false st f).fs p = some b := by
  simp only [convStep]
  by_cases hw : (st.fs (withSuffixWebp f)).isSome
  · rw [hw]; exact h
  · rw [Bool.not_eq_true] at hw
    rw [hw]
    simp only [Bool.false_and, Bool.false_eq_true, if_false]
    have hne : p ≠ withSuffixWebp f := by
      intro he
      rw [← he, h] at hw
      simp at hw
    cases hr : (convert_image_to_webp env st.fs f (withSuffixWebp f)).1.success
    · simp only [hr, Bool.false_eq_true, if_false]
      show (convert_image_to_webp env st.fs f (withSuffixWebp f)).2 p = some b
      rw [convert_fs_other env st.fs f (withSuffixWebp f) p hne]
      exact h
    · simp only [hr, if_true]
      show (convert_image_to_webp env st.fs f (withSuffixWebp f)).2 p = some b
      rw [convert_fs_other env st.fs f (withSuffixWebp f) p hne]
      exact h

/-- The whole conversion loop without `--overwrite` never changes an output
file that already exists. -/
theorem convRun_mono (env : PilEnv) (files : List String) (st : RunState) (p : String)
    (b : Nat) (h : st.fs p = some b) :
    (files.foldl (convStep env false) st).fs p = some b := by
  induction files generalizing st with
  | nil => exact h
  | cons f rest ih =>
    rw [List.foldl_cons]
    exact ih _ (convStep_mono env st f p b h)

/-- Membership in an insertion-sorted list. -/
theorem mem_insertSorted {a x : String} {l : List String} :
    a ∈ insertSorted x l ↔ a = x ∨ a ∈ l := by
  induction l with
  | nil => simp [insertSorted]
  | cons y ys ih =>
    unfold insertSorted
    by_cases h : x ≤ y
    · simp [h]
    · simp [h, ih]
      tauto

/-- Sorting keeps exactly the same members. -/
theorem mem_sortStrings {a : String} {l : List String} : a ∈ sortStrings l ↔ a ∈ l := by
  induction l with
  | nil => simp [sortStrings]
  | cons x xs ih =>
    show a ∈ insertSorted x (sortStrings xs) ↔ _
    rw [mem_insertSorted, ih]
    simp

/-! ### Concrete environments used by the witnesses and counterexamples -/

/-- Concrete watermark primitives over `Img := Nat`: encoding shifts the
payload by 100, decoding recovers WATERMARK_TEXT exactly from shifted
images, and every write succeeds. -/
def prims0 : Prims Nat where
  encodeImg := fun i _ => Except.ok (i + 100)
  decodeWM := fun i _ => if 100 ≤ i then Except.ok WATERMARK_TEXT else Except.ok [i]
  writeOk := fun _ _ => true

/-- Concrete primitives whose writes always fail. -/
def primsFail : Prims Nat where
  encodeImg := fun i _ => Except.ok (i + 100)
  decodeWM := fun i _ => Except.ok [i]
  writeOk := fun _ _ => false

/-- Concrete primitives whose decoder always raises. -/
def primsRaise : Prims Nat where
  encodeImg := fun i _ => Except.ok i
  decodeWM := fun _ _ => Except.error "watermark decode failed"
  writeOk := fun _ _ => true

/-- An empty filesystem. -/
def fsEmpty : FS Nat := fun _ => none

/-- A filesystem holding one unwatermarked readable image at pic.png. -/
def fsOne : FS Nat := fun q => if q = "pic.png" then some 5 else none

/-- A filesystem holding one unwatermarked readable image at photo.jpg. -/
def fsJpg : FS Nat := fun q => if q = "photo.jpg" then some 0 else none

/-- A filesystem holding one watermarked image at done.png (prims0 decodes
payload 100 to the watermark). -/
def fsDone : FS Nat := fun q => if q = "done.png" then some 100 else none

/-- A filesystem holding one unwatermarked image at the skip-listed path's
JPEG sibling assets/pics/lelem.jpg. -/
def fsLelem : FS Nat := fun q => if q = "assets/pics/lelem.jpg" then some 0 else none

/-! ### C2 — skip list short-circuits apply and verify -/

/-- C2: for every path in the hardcoded skip set, apply_watermark and
verify_watermark (with its default skip_check=True) both return success
with a skip message, perform no effect at all (in particular no read),
and leave the filesystem unchanged. -/
theorem claim2_skip_files {Img : Type} (prims : Prims Img) (fs : FS Img) (p : String)
    (hp : p ∈ SKIP_FILES) :
    apply_watermark prims fs p = ⟨true, some ("Skipped (in skip list): " ++ p), fs, []⟩ ∧
    verify_watermark prims fs p true = ⟨true, some ("Skipped (in skip list): " ++ p), []⟩ := by
  constructor
  · unfold apply_watermark
    simp [hp]
  · unfold verify_watermark
    simp [hp]

/-- Witness for C2 at the one skip-listed path. -/
theorem claim2_witness :
    apply_watermark prims0 fsEmpty "assets/pics/lelem.png" =
      ⟨true, some ("Skipped (in skip list): " ++ "assets/pics/lelem.png"), fsEmpty, []⟩ ∧
    verify_watermark prims0 fsEmpty "assets/pics/lelem.png" true =
      ⟨true, some ("Skipped (in skip list): " ++ "assets/pics/lelem.png"), []⟩ :=
  claim2_skip_files prims0 fsEmpty "assets/pics/lelem.png" (by decide)

/-! ### C6 — verify_watermark is total and reports failures as (False, msg) -/

/-- C6: outside the skip list, verify_watermark succeeds exactly when the
file is readable and decodes to the watermark; an unreadable file and a
raising decoder both yield (False, error message); a readable image whose
decoded payload differs from the watermark yields False (with the None
message the code returns) — in every case a value is returned, never an
exception. -/
theorem claim6_verify_total {Img : Type} (prims : Prims Img) (fs : FS Img) (p : String)
    (hskip : p ∉ SKIP_FILES) :
    ((verify_watermark prims fs p true).success = true ↔
      ∃ i, fs p = some i ∧ prims.decodeWM i ALGORITHM = Except.ok WATERMARK_TEXT) ∧
    (fs p = none →
      verify_watermark prims fs p true =
        ⟨false, some ("Could not read image: " ++ p), [Effect.readE p]⟩) ∧
    (∀ i e, fs p = some i → prims.decodeWM i ALGORITHM = Except.error e →
      verify_watermark prims fs p true = ⟨false, some e, [Effect.readE p, Effect.decodeE]⟩) ∧
    (∀ i d, fs p = some i → prims.decodeWM i ALGORITHM = Except.ok d → d ≠ WATERMARK_TEXT →
      verify_watermark prims fs p true = ⟨false, none, [Effect.readE p, Effect.decodeE]⟩) := by
  refine ⟨?_, ?_, ?_, ?_⟩
  · unfold verify_watermark
    cases hfp : fs p with
    | none => simp [hskip, hfp]
    | some i =>
      cases hdec : prims.decodeWM i ALGORITHM with
      | error e => simp [hskip, hfp, hdec]
      | ok d => simp [hskip, hfp, hdec]
  · intro h
    unfold verify_watermark
    simp [hskip, h]
  · intro i e hi hd
    unfold verify_watermark
    simp [hskip, hi, hd]
  · intro i d hi hd hne
    unfold verify_watermark
    simp [hskip, hi, hd, hne]

/-- Witness for C6: a decoder that raises is reported as a missing
watermark with the stringified error, not a crash. -/
theorem claim6_witness :
    verify_watermark primsRaise fsOne "pic.png" true =
      ⟨false, some "watermark decode failed", [Effect.readE "pic.png", Effect.decodeE]⟩ :=
  (claim6_verify_total primsRaise fsOne "pic.png" (by decide)).2.2.1 5
    "watermark decode failed" rfl rfl

/-! ### C10 — failed PNG write leaves the original JPEG untouched -/

/-- C10: while watermarking a `.jpg`/`.jpeg` file, when the write of the
watermarked `.png` file returns false, apply_watermark returns failure
with a None message, performs no remove, and leaves the filesystem — in
particular the original JPEG — unchanged. -/
theorem claim10_failed_write_keeps_original {Img : Type} (prims : Prims Img) (fs : FS Img)
    (p : String) (img wm : Img)
    (hskip : p ∉ SKIP_FILES)
    (hver : (verify_watermark prims fs p false).success = false)
    (hread : fs p = some img)
    (hjpeg : isJpegPath p = true)
    (henc : prims.encodeImg img ALGORITHM = Except.ok wm)
    (hwrite : prims.writeOk (pngTarget p) wm = false) :
    apply_watermark prims fs p =
      ⟨false, none, fs,
        (verify_watermark prims fs p false).effects ++
          [Effect.readE p, Effect.encodeE, Effect.writeE (pngTarget p) false]⟩ ∧
    Effect.removeE p ∉ (apply_watermark prims fs p).effects ∧
    (apply_watermark prims fs p).fs p = some img := by
  have heq : apply_watermark prims fs p =
      ⟨false, none, fs,
        (verify_watermark prims fs p false).effects ++
          [Effect.readE p, Effect.encodeE, Effect.writeE (pngTarget p) false]⟩ := by
    unfold apply_watermark
    simp [hskip, hver, hread, henc, hjpeg, hwrite]
  refine ⟨heq, ?_, ?_⟩
  · rw [heq]
    simp only [List.mem_append]
    rintro (hmem | hmem)
    · exact verify_no_remove prims fs p p false hmem
    · simp at hmem
  · rw [heq]
    exact hread

/-- Witness for C10: with a write primitive that fails, photo.jpg is kept
and the call reports failure with no message. -/
theorem claim10_witness :
    apply_watermark primsFail fsJpg "photo.jpg" =
      ⟨false, none, fsJpg,
        (verify_watermark primsFail fsJpg "photo.jpg" false).effects ++
          [Effect.readE "photo.jpg", Effect.encodeE,
            Effect.writeE (pngTarget "photo.jpg") false]⟩ ∧
    Effect.removeE "photo.jpg" ∉ (apply_watermark primsFail fsJpg "photo.jpg").effects ∧
    (apply_watermark primsFail fsJpg "photo.jpg").fs "photo.jpg" = some 0 :=
  claim10_failed_write_keeps_original primsFail fsJpg "photo.jpg" 0 100
    (by decide) (by decide) rfl (by decide) rfl rfl

/-! ### C5 — a fresh JPEG is converted to PNG, the original removed, exit 0 -/

/-- C5: on a non-skip-listed, readable, not-yet-watermarked `.jpg`/`.jpeg`
file (whose encode and write succeed), apply_watermark reports the
conversion, the watermarked pixels end up at the `.png` sibling (same stem,
`.png` extension), the original JPEG is deleted, and the apply subcommand
run on this single file exits with status 0. -/
theorem claim5_jpeg_to_png {Img : Type} (prims : Prims Img) (fs : FS Img)
    (p : String) (img wm : Img)
    (hskip : p ∉ SKIP_FILES)
    (hver : (verify_watermark prims fs p false).success = false)
    (hread : fs p = some img)
    (hjpeg : isJpegPath p = true)
    (henc : prims.encodeImg img ALGORITHM = Except.ok wm)
    (hwrite : prims.writeOk (pngTarget p) wm = true) :
    (apply_watermark prims fs p).success = true ∧
    (apply_watermark prims fs p).message =
      some ("Converted to PNG and watermarked: " ++ pngTarget p) ∧
    (apply_watermark prims fs p).fs (pngTarget p) = some wm ∧
    (apply_watermark prims fs p).fs p = none ∧
    (applyBatch prims fs [p]).code = 0 := by
  have heq : apply_watermark prims fs p =
      ⟨true, some ("Converted to PNG and watermarked: " ++ pngTarget p),
        fun q => if q = p then none else if q = pngTarget p then some wm else fs q,
        (verify_watermark prims fs p false).effects ++
          [Effect.readE p, Effect.encodeE, Effect.writeE (pngTarget p) true,
            Effect.removeE p]⟩ := by
    unfold apply_watermark
    simp [hskip, hver, hread, henc, hjpeg, hwrite]
  refine ⟨?_, ?_, ?_, ?_, ?_⟩
  · rw [heq]
  · rw [heq]
  · rw [heq]
    show (if pngTarget p = p then none
      else if pngTarget p = pngTarget p then some wm else fs (pngTarget p)) = some wm
    rw [if_neg (pngTarget_ne_self hjpeg), if_pos rfl]
  · rw [heq]
    show (if p = p then none else _) = none
    rw [if_pos rfl]
  · simp only [applyBatch]
    rw [heq]
    simp [applyBatch]

/-- Witness for C5: photo.jpg is converted to photo.png, the original is
gone, and the apply batch on it exits 0. -/
theorem claim5_witness :
    (apply_watermark prims0 fsJpg "photo.jpg").success = true ∧
    (apply_watermark prims0 fsJpg "photo.jpg").message =
      some ("Converted to PNG and watermarked: " ++ pngTarget "photo.jpg") ∧
    (apply_watermark prims0 fsJpg "photo.jpg").fs (pngTarget "photo.jpg") = some 100 ∧
    (apply_watermark prims0 fsJpg "photo.jpg").fs "photo.jpg" = none ∧
    (applyBatch prims0 fsJpg ["photo.jpg"]).code = 0 :=
  claim5_jpeg_to_png prims0 fsJpg "photo.jpg" 0 100
    (by decide) (by decide) rfl (by decide) rfl rfl

/-! ### C1 — idempotence of apply_watermark -/

/-- C1 (amended): outside the skip list, when the watermark library's
round trip holds (whatever was encoded decodes back to WATERMARK_TEXT), a
successful apply_watermark leaves some file holding an image that decodes
to the watermark — and, provided that resulting path is itself not in the
skip list, a second apply_watermark on it does not re-encode, does not
write, does not remove, leaves the filesystem unchanged, and returns
success with the "Already watermarked" message. -/
theorem claim1_idempotent {Img : Type} (prims : Prims Img) (fs : FS Img) (p : String)
    (hskip : p ∉ SKIP_FILES)
    (hrt : ∀ i w, prims.encodeImg i ALGORITHM = Except.ok w →
      prims.decodeWM w ALGORITHM = Except.ok WATERMARK_TEXT)
    (hsucc : (apply_watermark prims fs p).success = true) :
    ∃ p2 w, (apply_watermark prims fs p).fs p2 = some w ∧
      prims.decodeWM w ALGORITHM = Except.ok WATERMARK_TEXT ∧
      (p2 ∉ SKIP_FILES →
        apply_watermark prims (apply_watermark prims fs p).fs p2 =
          ⟨true, some ("Already watermarked: " ++ p2), (apply_watermark prims fs p).fs,
            [Effect.readE p2, Effect.decodeE]⟩) := by
  by_cases hv : (verify_watermark prims fs p false).success = true
  · obtain ⟨i, hfp, hdec⟩ : ∃ i, fs p = some i ∧
        prims.decodeWM i ALGORITHM = Except.ok WATERMARK_TEXT := by
      unfold verify_watermark at hv
      cases hfp : fs p with
      | none => rw [hfp] at hv; simp at hv
      | some i =>
        rw [hfp] at hv
        dsimp only at hv
        cases hdec : prims.decodeWM i ALGORITHM with
        | error e => rw [hdec] at hv; simp at hv
        | ok d =>
          rw [hdec] at hv
          simp only [Bool.false_and, Bool.false_eq_true, if_false, decide_eq_true_eq] at hv
          exact ⟨i, rfl, by rw [hdec, hv]⟩
    have heq : apply_watermark prims fs p =
        ⟨true, some ("Already watermarked: " ++ p), fs,
          (verify_watermark prims fs p false).effects⟩ := by
      unfold apply_watermark
      simp [hskip, hv]
    refine ⟨p, i, ?_, hdec, ?_⟩
    · rw [heq]; exact hfp
    · intro hp2
      rw [heq]
      exact apply_on_watermarked prims fs p i hp2 hfp hdec
  · rw [Bool.not_eq_true] at hv
    cases hfp : fs p with
    | none =>
      have : (apply_watermark prims fs p).success = false := by
        unfold apply_watermark
        simp [hskip, hv, hfp]
      rw [this] at hsucc; cases hsucc
    | some img =>
      cases henc : prims.encodeImg img ALGORITHM with
      | error e =>
        have : (apply_watermark prims fs p).success = false := by
          unfold apply_watermark
          simp [hskip, hv, hfp, henc]
        rw [this] at hsucc; cases hsucc
      | ok wm =>
        have hdec : prims.decodeWM wm ALGORITHM = Except.ok WATERMARK_TEXT := hrt img wm henc
        by_cases hj : isJpegPath p = true
        · cases hwr : prims.writeOk (pngTarget p) wm with
          | false =>
            have : (apply_watermark prims fs p).success = false := by
              unfold apply_watermark
              simp [hskip, hv, hfp, henc, hj, hwr]
            rw [this] at hsucc; cases hsucc
          | true =>
            have heq : apply_watermark prims fs p =
                ⟨true, some ("Converted to PNG and watermarked: " ++ pngTarget p),
                  fun q => if q = p then none else if q = pngTarget p then some wm else fs q,
                  (verify_watermark prims fs p false).effects ++
                    [Effect.readE p, Effect.encodeE, Effect.writeE (pngTarget p) true,
                      Effect.removeE p]⟩ := by
              unfold apply_watermark
              simp [hskip, hv, hfp, henc, hj, hwr]
            have hfs2 : (apply_watermark prims fs p).fs (pngTarget p) = some wm := by
              rw [heq]
              show (if pngTarget p = p then none
                else if pngTarget p = pngTarget p then some wm else fs (pngTarget p)) = some wm
              rw [if_neg (pngTarget_ne_self hj), if_pos rfl]
            exact ⟨pngTarget p, wm, hfs2, hdec, fun hp2 =>
              apply_on_watermarked prims (apply_watermark prims fs p).fs (pngTarget p) wm
                hp2 hfs2 hdec⟩
        · rw [Bool.not_eq_true] at hj
          cases hwr : prims.writeOk p wm with
          | false =>
            have : (apply_watermark prims fs p).success = false := by
              unfold apply_watermark
              simp [hskip, hv, hfp, henc, hj, hwr]
            rw [this] at hsucc; cases hsucc
          | true =>
            have heq : apply_watermark prims fs p =
                ⟨true, none, fun q => if q = p then some wm else fs q,
                  (verify_watermark prims fs p false).effects ++
                    [Effect.readE p, Effect.encodeE, Effect.writeE p true]⟩ := by
              unfold apply_watermark
              simp [hskip, hv, hfp, henc, hj, hwr]
            have hfs2 : (apply_watermark prims fs p).fs p = some wm := by
              rw [heq]
              show (if p = p then some wm else fs p) = some wm
              rw [if_pos rfl]
            exact ⟨p, wm, hfs2, hdec, fun hp2 =>
              apply_on_watermarked prims (apply_watermark prims fs p).fs p wm
                hp2 hfs2 hdec⟩

/-- Witness for C1 at a concrete watermarked file: done.png holds payload
100, which prims0 decodes to the watermark. -/
theorem claim1_witness :
    ∃ p2 w, (apply_watermark prims0 fsDone "done.png").fs p2 = some w ∧
      prims0.decodeWM w ALGORITHM = Except.ok WATERMARK_TEXT ∧
      (p2 ∉ SKIP_FILES →
        apply_watermark prims0 (apply_watermark prims0 fsDone "done.png").fs p2 =
          ⟨true, some ("Already watermarked: " ++ p2),
            (apply_watermark prims0 fsDone "done.png").fs,
            [Effect.readE p2, Effect.decodeE]⟩) :=
  claim1_idempotent prims0 fsDone "done.png" (by decide)
    (fun i w h => by
      have hw : w = i + 100 := by
        have := h
        simp [prims0] at this
        exact this.symm
      subst hw
      simp [prims0, Nat.le_add_left])
    (by decide)

/-- Counterexample for C1 as stated: assets/pics/lelem.jpg is not in the
skip list and apply_watermark succeeds on it, converting it to
assets/pics/lelem.png — but that resulting file is in the skip list, so
the second call reports it skipped, not already watermarked. -/
theorem claim1_counterexample :
    ("assets/pics/lelem.jpg" ∉ SKIP_FILES) ∧
    (apply_watermark prims0 fsLelem "assets/pics/lelem.jpg").success = true ∧
    pngTarget "assets/pics/lelem.jpg" = "assets/pics/lelem.png" ∧
    (apply_watermark prims0 fsLelem "assets/pics/lelem.jpg").fs "assets/pics/lelem.png"
      = some 100 ∧
    prims0.decodeWM 100 ALGORITHM = Except.ok WATERMARK_TEXT ∧
    (apply_watermark prims0
        (apply_watermark prims0 fsLelem "assets/pics/lelem.jpg").fs
        "assets/pics/lelem.png").message =
      some ("Skipped (in skip list): " ++ "assets/pics/lelem.png") ∧
    some ("Skipped (in skip list): " ++ "assets/pics/lelem.png") ≠
      some ("Already watermarked: " ++ "assets/pics/lelem.png") := by
  refine ⟨by decide, by decide, by decide, by decide, by rfl, by decide, by decide⟩

/-! ### C7 — batch failure policy of main() -/

/-- C7: the `apply` loop stops at the first failing file — after a prefix
that processed cleanly (exit 0 over `pre`), a failing file `f` makes the
whole batch exit 1 having processed exactly `pre ++ [f]`, no matter what
comes after; the `verify` loop processes every listed file and exits 0
exactly when all of them verify. -/
theorem claim7_batch_policy {Img : Type} (prims : Prims Img) (fs fs1 : FS Img)
    (pre post : List String) (f : String)
    (h1 : applyBatch prims fs pre = ⟨0, pre, fs1⟩)
    (h2 : (apply_watermark prims fs1 f).success = false) :
    applyBatch prims fs (pre ++ f :: post) =
      ⟨1, pre ++ [f], (apply_watermark prims fs1 f).fs⟩ ∧
    (∀ (fs2 : FS Img) (files : List String),
      (verifyBatch prims fs2 true files).processed = files ∧
      ((verifyBatch prims fs2 true files).code = 0 ↔
        ∀ q ∈ files, (verify_watermark prims fs2 q true).success = true)) := by
  constructor
  · induction pre generalizing fs with
    | nil =>
      have hfs : fs = fs1 := congrArg ApplyBatchResult.fs h1
      subst hfs
      simp only [List.nil_append, applyBatch, h2, Bool.false_eq_true, if_false]
    | cons a pre' ih =>
      cases hs : (apply_watermark prims fs a).success with
      | false =>
        simp only [applyBatch, hs, Bool.false_eq_true, if_false] at h1
        have := congrArg ApplyBatchResult.code h1
        simp at this
      | true =>
        have hb : applyBatch prims (apply_watermark prims fs a).fs pre' = ⟨0, pre', fs1⟩ := by
          have hc := congrArg ApplyBatchResult.code h1
          have hp := congrArg ApplyBatchResult.processed h1
          have hf := congrArg ApplyBatchResult.fs h1
          simp only [applyBatch, hs, if_true] at hc hp hf
          rcases hE : applyBatch prims (apply_watermark prims fs a).fs pre' with ⟨c, pr, ff⟩
          rw [hE] at hc hp hf
          simp at hc hp hf
          rw [hc, hp, hf]
        rw [List.cons_append]
        simp only [applyBatch, hs, if_true]
        rw [ih ((apply_watermark prims fs a).fs) hb]
        simp
  · intro fs2 files
    refine ⟨verifyBatch_processed prims fs2 true files, ?_⟩
    rw [verifyBatch_code prims fs2 true files]
    simp

/-- Witness for C7: with failing writes, a batch of two files exits 1
having processed only the first. -/
theorem claim7_witness :
    applyBatch primsFail fsOne ["pic.png", "other.png"] =
      ⟨1, ["pic.png"], (apply_watermark primsFail fsOne "pic.png").fs⟩ :=
  (claim7_batch_policy primsFail fsOne fsOne [] ["other.png"] "pic.png" rfl (by decide)).1

/-! ### Concrete converter environments -/

/-- Concrete PIL primitives: every open yields an RGB image, converts
produce payload 1, saves succeed writing content 7, stat reports 3. -/
def pilEnv0 : PilEnv where
  openImg := fun _ => Except.ok ⟨"RGB", 0⟩
  convData := fun _ _ => 1
  saveRes := fun _ _ _ => Except.ok 7
  statSize := fun _ => 3

/-- Concrete PIL primitives whose saves always raise. -/
def pilEnvFail : PilEnv where
  openImg := fun _ => Except.ok ⟨"RGB", 0⟩
  convData := fun _ _ => 1
  saveRes := fun _ _ _ => Except.error "disk full"
  statSize := fun _ => 3

/-- An empty output filesystem. -/
def fsOut : OutFS := fun _ => none

/-- An output filesystem where x.webp already exists with content 9. -/
def fsPre : OutFS := fun q => if q = "x.webp" then some 9 else none

/-- A loop state whose filesystem is fsPre. -/
def st0 : RunState := ⟨0, 0, 0, 0, 0, fsPre⟩

/-! ### C3 — color-mode normalization before the lossless WebP save -/

/-- The color-mode mapping the specification's sentence describes: palette
(P) and luminance-plus-alpha (LA) both promoted to RGBA; every other mode
that is neither RGB nor RGBA converted to RGB. -/
def specC3Mode (m : String) : String :=
  if m = "P" ∨ m = "LA" then "RGBA"
  else if m = "RGB" ∨ m = "RGBA" then m
  else "RGB"

/-- C3 (amended): convert_image_to_webp saves exactly one file, with the
lossless WebP parameters, holding the mode-normalized image; the
normalization promotes palette mode P to RGBA, keeps RGBA, LA and RGB
unchanged — LA is NOT promoted — and converts every other mode to RGB. -/
theorem claim3_mode_normalization (env : PilEnv) (fs : OutFS) (inp out : String)
    (img0 : PImg) (h : env.openImg inp = Except.ok img0) :
    (convert_image_to_webp env fs inp out).1.saves =
      [(out, prepareForWebp env img0, webpParams)] ∧
    (prepareForWebp env img0).mode =
      (if img0.mode = "P" then "RGBA"
       else if img0.mode = "RGBA" ∨ img0.mode = "LA" ∨ img0.mode = "RGB" then img0.mode
       else "RGB") ∧
    webpParams.format = "WebP" ∧ webpParams.lossless = true := by
  refine ⟨?_, ?_, rfl, rfl⟩
  · unfold convert_image_to_webp
    rw [h]
    dsimp only
    cases env.saveRes out (prepareForWebp env img0) webpParams <;> rfl
  · unfold prepareForWebp
    by_cases hP : img0.mode = "P"
    · simp [hP, pilConvert]
    · by_cases hRGBA : img0.mode = "RGBA"
      · simp [hP, hRGBA, pilConvert]
      · by_cases hLA : img0.mode = "LA"
        · simp [hP, hRGBA, hLA, pilConvert]
        · by_cases hRGB : img0.mode = "RGB"
          · simp [hP, hRGBA, hLA, hRGB, pilConvert]
          · simp [hP, hRGBA, hLA, hRGB, pilConvert]

/-- Counterexample for C3 as stated: an LA image is saved still in LA mode,
not promoted to RGBA as the claim says. -/
theorem claim3_counterexample :
    (prepareForWebp pilEnv0 ⟨"LA", 0⟩).mode = "LA" ∧
    specC3Mode "LA" = "RGBA" ∧
    ("LA" : String) ≠ "RGBA" :=
  ⟨by decide, by decide, by decide⟩

/-- Witness for C3 on a concrete RGB image. -/
theorem claim3_witness :
    (convert_image_to_webp pilEnv0 fsOut "a.png" "a.webp").1.saves =
      [("a.webp", prepareForWebp pilEnv0 ⟨"RGB", 0⟩, webpParams)] ∧
    (prepareForWebp pilEnv0 ⟨"RGB", 0⟩).mode =
      (if ("RGB" : String) = "P" then "RGBA"
       else if ("RGB" : String) = "RGBA" ∨ ("RGB" : String) = "LA" ∨ ("RGB" : String) = "RGB"
         then "RGB"
       else "RGB") ∧
    webpParams.format = "WebP" ∧ webpParams.lossless = true :=
  claim3_mode_normalization pilEnv0 fsOut "a.png" "a.webp" ⟨"RGB", 0⟩ rfl

/-! ### C4 — directory scan selection -/

/-- The selection predicate the specification's sentence describes:
case-insensitive extension match against the supported set. -/
def ciMatches (n : String) : Bool :=
  supported_formats.any (fun ext => decide (ext.toList <:+ lowerChars n))

/-- C4 (amended): the scan selects exactly the directory entries ending in
one of the six literal suffixes .jpg/.JPG/.jpeg/.JPEG/.png/.PNG — the
all-lower-case and all-upper-case variants only, not arbitrary
mixed-case extensions. -/
theorem claim4_scan_selection (names : List String) (n : String) :
    n ∈ imageFiles names ↔
      n ∈ names ∧
        (".jpg".toList <:+ n.toList ∨ ".JPG".toList <:+ n.toList ∨
         ".jpeg".toList <:+ n.toList ∨ ".JPEG".toList <:+ n.toList ∨
         ".png".toList <:+ n.toList ∨ ".PNG".toList <:+ n.toList) := by
  have h1 : strUpper ".jpg" = ".JPG" := by decide
  have h2 : strUpper ".jpeg" = ".JPEG" := by decide
  have h3 : strUpper ".png" = ".PNG" := by decide
  unfold imageFiles supported_formats
  simp only [List.foldl_cons, List.foldl_nil]
  rw [h1, h2, h3]
  simp only [List.nil_append, List.mem_append, globEndsWith, List.mem_filter,
    decide_eq_true_eq]
  tauto

/-- Counterexample for C4 as stated: photo.Jpg matches the supported set
case-insensitively, yet the scan selects nothing from a directory whose
only entry it is. -/
theorem claim4_counterexample :
    ciMatches "photo.Jpg" = true ∧ imageFiles ["photo.Jpg"] = [] :=
  ⟨by decide, by decide⟩

/-! ### C8 — converter exit status -/

/-- C8: the converter exits 1 when the input directory is missing; exits 0
iff no per-file conversion errored (and 1 iff one did); exits 0 when no
supported file is found; and exits 0 when every candidate was merely
skipped because its output already existed (without --overwrite). -/
theorem claim8_exit_status (env : PilEnv) (cfg : ConvCfg) (fs0 : OutFS) :
    (cfg.dirExists = false → (converterMain env cfg fs0).1 = 1) ∧
    (cfg.dirExists = true →
      (((converterMain env cfg fs0).1 = 0 ↔ (converterMain env cfg fs0).2.errors = 0) ∧
       ((converterMain env cfg fs0).1 = 1 ↔ (converterMain env cfg fs0).2.errors ≠ 0))) ∧
    (cfg.dirExists = true → imageFiles cfg.names = [] → (converterMain env cfg fs0).1 = 0) ∧
    (cfg.dirExists = true → cfg.overwrite = false →
      (∀ f ∈ imageFiles cfg.names, (fs0 (withSuffixWebp f)).isSome = true) →
      (converterMain env cfg fs0).1 = 0) := by
  refine ⟨?_, ?_, ?_, ?_⟩
  · intro h
    unfold converterMain
    rw [h]
    rfl
  · intro h
    unfold converterMain
    rw [h]
    simp only [Bool.not_true, Bool.false_eq_true, if_false]
    by_cases he : (imageFiles cfg.names).isEmpty
    · simp [he]
    · simp only [he, Bool.false_eq_true, if_false]
      by_cases hz : (convRun env cfg.overwrite fs0 (sortStrings (imageFiles cfg.names))).errors = 0
      · simp [hz]
      · simp [hz]
  · intro h hempty
    unfold converterMain
    rw [h]
    simp [hempty]
  · intro h hov hall
    unfold converterMain
    rw [h, hov]
    simp only [Bool.not_true, Bool.false_eq_true, if_false]
    by_cases he : (imageFiles cfg.names).isEmpty
    · simp [he]
    · simp only [he, Bool.false_eq_true, if_false]
      have hrun : convRun env false fs0 (sortStrings (imageFiles cfg.names)) =
          { converted := 0, skipped := 0 + (sortStrings (imageFiles cfg.names)).length,
            errors := 0, totalOrig := 0, totalWebp := 0, fs := fs0 } := by
        unfold convRun
        exact convRun_all_skipped env _ ⟨0, 0, 0, 0, 0, fs0⟩
          (fun g hg => hall g (mem_sortStrings.mp hg))
      rw [hrun]
      rfl

/-- Witness for C8: a directory holding only photo.Jpg yields no supported
file, and the converter exits 0. -/
theorem claim8_witness :
    (converterMain pilEnv0 ⟨false, true, ["photo.Jpg"]⟩ fsOut).1 = 0 :=
  (claim8_exit_status pilEnv0 ⟨false, true, ["photo.Jpg"]⟩ fsOut).2.2.1 rfl (by decide)

/-! ### C9 — skip logic makes a second run byte-identical -/

/-- C9: without --overwrite, a loop step on a file whose derived .webp
output already exists only increments the skip counter (no write, no
state change); consequently everything present after a first full run —
in particular every output it produced — is still byte-identical after
running the whole loop a second time over the same files. -/
theorem claim9_skip_existing (env : PilEnv) (fs0 : OutFS) (st : RunState)
    (f p : String) (b : Nat) (files : List String)
    (h1 : (st.fs (withSuffixWebp f)).isSome = true)
    (h2 : (convRun env false fs0 files).fs p = some b) :
    convStep env false st f = { st with skipped := st.skipped + 1 } ∧
    (convRun env false (convRun env false fs0 files).fs files).fs p = some b := by
  refine ⟨convStep_skip env st f h1, ?_⟩
  unfold convRun
  exact convRun_mono env files ⟨0, 0, 0, 0, 0, (convRun env false fs0 files).fs⟩ p b h2

/-- Witness for C9: x.webp exists, so the step only skips; and the output
written for x.png in a first run is unchanged by a second run. -/
theorem claim9_witness :
    convStep pilEnv0 false st0 "x.png" = { st0 with skipped := st0.skipped + 1 } ∧
    (convRun pilEnv0 false (convRun pilEnv0 false fsOut ["x.png"]).fs ["x.png"]).fs "x.webp"
      = some 7 :=
  claim9_skip_existing pilEnv0 fsOut st0 "x.png" "x.webp" 7 ["x.png"] (by decide) (by decide)
